import Mathlib

/-!
Verification development for the guardrail + evaluation pipeline of the
`rai-latam-demo-backend` service.

The definitions below are a shallow embedding of the Python source:
  * `app/services/chat.py`        — `ChatService` (filter chain, history, chat turn)
  * `app/services/evaluators.py`  — `LLMEvaluator.evaluate_response` and output parsing
  * `app/services/langsmith_client.py` — feedback formatting / human feedback
  * `app/services/evaluation_service.py` — `FeedbackService.record_feedback`
  * `app/utils/evaluate.py`       — `normalize_score`

LLM calls and the LangChain classifier chains are external capabilities; they
are modelled as explicit parameters (a function from the message list to a
result, or a per-filter classifier outcome), exactly at the point where the
Python code awaits them.  Python numbers are modelled as `Rat`, strings as
`String`, dictionaries with known keys as structures of `Option` fields
(`dict.get` with a default becomes `Option.getD`).
-/

namespace RaiDemo

/-- A JSON-ish scalar value as it appears in the evaluator / feedback
dictionaries (either a string or a number). -/
inductive JVal where
  | str (s : String)
  | num (q : Rat)
deriving DecidableEq, Repr

/- ------------------------------------------------------------------ -/
/- Filter chain: `ChatService.apply_input_filters` / `_run_single_filter` -/
/- ------------------------------------------------------------------ -/

/-- One entry of `config["input_filters"]` (`chat.py`).  Only the keys read by
`_run_single_filter` are modelled: `name` and `template_response` are read with
`dict.get` (so they are optional); `provider`, `model`, `inference` and
`system_prompt` only shape the outbound classifier call, which is abstracted
by `ClassifierRun` below. -/
structure FilterConfig where
  name : Option String
  template_response : Option String
deriving DecidableEq, Repr

/-- Outcome of the classifier chain invocation
`filter_chain.ainvoke({"query": query.strip()})` in `_run_single_filter`:
either a parsed JSON object (whose `decision` / `evaluation` keys may be
absent — read with `dict.get` and a default), or an exception.  A raw output
that fails JSON parsing raises `OutputParserException`, so it is a `raises`
case as well. -/
inductive ClassifierRun where
  | parsed (decision : Option String) (evaluation : Option String)
  | raises (msg : String)
deriving DecidableEq, Repr

/-- The apostrophe character, used in string literals from the source. -/
def apos : String := String.singleton (Char.ofNat 39)

/-- Default template response in `_run_single_filter`
(`"Sorry, I can't help with that."`). -/
def defaultTemplateResponse : String :=
  "Sorry, I can" ++ apos ++ "t help with that."

/-- `ChatService._run_single_filter` (chat.py lines 93-106): on a parsed
classifier result, build `(decision, "<name>: <evaluation>", template)`; on any
exception, fail open with `("safe", "Filter error: <e>", "")`. -/
def runSingleFilter (cfg : FilterConfig) (run : ClassifierRun) :
    String × String × String :=
  match run with
  | .parsed decision evaluation =>
      (decision.getD "safe",
       cfg.name.getD "filter" ++ ": " ++ evaluation.getD "",
       cfg.template_response.getD defaultTemplateResponse)
  | .raises msg =>
      ("safe", "Filter error: " ++ msg, "")

/-- The per-filter outcomes in configuration order: `_run_single_filter`
applied to each configured filter and its classifier outcome. -/
def filterOutcomes (configs : List FilterConfig) (runs : List ClassifierRun) :
    List (String × String × String) :=
  List.zipWith runSingleFilter configs runs

/-- The list handed to `asyncio.gather(*filter_tasks, return_exceptions=True)`:
one task result per configured filter, in configuration order.  Since
`_run_single_filter` catches every `Exception`, each task result is an `ok`
triple; the `Except` layer records that `apply_input_filters` still guards
against exception objects in the gathered list (chat.py lines 61-64). -/
def filterTaskResults (configs : List FilterConfig) (runs : List ClassifierRun) :
    List (Except String (String × String × String)) :=
  (filterOutcomes configs runs).map Except.ok

/-- The aggregation loop of `ChatService.apply_input_filters` (chat.py lines
60-68): scan the gathered results in configuration order; skip exception
entries; return the first triple whose decision is `"danger"`; otherwise
`("safe", "", "")`. -/
def applyInputFiltersFrom :
    List (Except String (String × String × String)) → String × String × String
  | [] => ("safe", "", "")
  | Except.error _ :: rest => applyInputFiltersFrom rest
  | Except.ok t :: rest => if t.1 = "danger" then t else applyInputFiltersFrom rest

/-- `ChatService.apply_input_filters`, composed from the per-filter runs and
the aggregation loop. -/
def applyInputFilters (configs : List FilterConfig) (runs : List ClassifierRun) :
    String × String × String :=
  applyInputFiltersFrom (filterTaskResults configs runs)

/- Model of `asyncio.gather` slot semantics: tasks complete in an arbitrary
order, and each completion writes that task's result into the slot of the
task's index; the gathered list reads the slots back in task order. -/

/-- The result buffer after the tasks listed in `order` (indices, in
completion order) have completed: slot `i` holds task `i`'s result once task
`i` has completed. -/
def gatherBuffer (tasks : List α) (order : List Nat) : Nat → Option α :=
  order.foldl (fun buf i => fun j => if j = i then tasks.get? i else buf j)
    (fun _ => none)

/-- The list `asyncio.gather` returns: slots read back in task order. -/
def gatherOutput (tasks : List α) (order : List Nat) : List (Option α) :=
  (List.range tasks.length).map (gatherBuffer tasks order)

/-- Collapse the slot buffer to the completed results. -/
def completedResults (slots : List (Option α)) : List α :=
  slots.filterMap id

/- ------------------------------------------------------------------ -/
/- Chat orchestrator: `ChatService.handle_chat` (chat.py lines 117-178) -/
/- ------------------------------------------------------------------ -/

/-- Python `str.strip()`: remove whitespace from both ends (modelled on the
character list so that it evaluates inside the kernel). -/
def pyStrip (s : String) : String :=
  ⟨((s.data.dropWhile Char.isWhitespace).reverse.dropWhile
      Char.isWhitespace).reverse⟩

/-- A LangChain message: `SystemMessage` / `HumanMessage` / `AIMessage`. -/
inductive Msg where
  | system (content : String)
  | user (content : String)
  | assistant (content : String)
deriving DecidableEq, Repr

/-- `isinstance(msg, SystemMessage)`. -/
def Msg.isSystem : Msg → Bool
  | .system _ => true
  | _ => false

/-- The LLM completion capability (`self.llm.ainvoke(history)`): given the
message list, either a completion string or a raised exception. -/
def LlmCall : Type := List Msg → Except String String

/-- chat.py lines 138-140: insert the configured system prompt at index 0 when
it is non-empty (Python truthiness) and no system message is present yet. -/
def withSystem (systemPrompt : String) (history : List Msg) : List Msg :=
  if systemPrompt ≠ "" ∧ ¬ history.any Msg.isSystem then
    Msg.system systemPrompt :: history
  else history

/-- `history[0]` exists and is a `SystemMessage`. -/
def headIsSystem : List Msg → Bool
  | Msg.system _ :: _ => true
  | _ => false

/-- chat.py lines 152-160: when the history exceeds `max_history`, rebuild it
as the leading system message (kept only when a system prompt is configured
and `history[0]` is a system message) followed by the last
`max_history - len(new_history)` entries (`history[-tail_size:]`, taken only
when `tail_size > 0`). -/
def trimHistory (systemPrompt : String) (maxHistory : Nat) (history : List Msg) :
    List Msg :=
  if history.length > maxHistory then
    let head : List Msg :=
      if systemPrompt ≠ "" ∧ headIsSystem history then history.take 1 else []
    let tailSize : Nat := maxHistory - head.length
    if tailSize > 0 then head ++ history.drop (history.length - tailSize)
    else head
  else history

/-- The generation phase of one chat turn (chat.py lines 136-160), acting on
one session's history list: insert the system prompt if needed, append the
trimmed user message, call the LLM, and on success append the completion and
trim.  The first component is the session's stored history when the turn
finishes (on an LLM exception the already-performed in-place mutations
remain); the second is the returned content or the propagated exception. -/
def chatTurn (systemPrompt : String) (maxHistory : Nat) (llm : LlmCall)
    (history : List Msg) (query : String) : List Msg × Except String String :=
  let h1 := withSystem systemPrompt history
  let h2 := h1 ++ [Msg.user (pyStrip query)]
  match llm h2 with
  | .error e => (h2, .error e)
  | .ok content =>
      (trimHistory systemPrompt maxHistory (h2 ++ [Msg.assistant content]),
       .ok content)

/-- `self.chat_history[sid]` lookup in the per-session store (a Python dict,
modelled as an association list in insertion order). -/
def lookupSession (store : List (String × List Msg)) (sid : String) :
    Option (List Msg) :=
  (store.find? (fun p => p.1 = sid)).map (fun p => p.2)

/-- Store the (mutated) history list back under `sid`; a missing key is
appended, matching `dict.setdefault` insertion followed by in-place mutation. -/
def setSession (store : List (String × List Msg)) (sid : String)
    (history : List Msg) : List (String × List Msg) :=
  match store with
  | [] => [(sid, history)]
  | (k, v) :: rest =>
      if k = sid then (sid, history) :: rest
      else (k, v) :: setSession rest sid history

/-- `ChatService.handle_chat` (chat.py lines 117-178), with LangSmith tracing
and the fire-and-forget background evaluation task omitted (they do not touch
the history or the returned triple's response/session components).  `fresh`
stands for the generated `uuid.uuid4()` used when `session_id` is falsy.
Returns (chat_history store, response-or-exception, session_id). -/
def handleChat (systemPrompt : String) (maxHistory : Nat)
    (configs : List FilterConfig) (runs : List ClassifierRun) (llm : LlmCall)
    (store : List (String × List Msg)) (query : String) (sessionId : String)
    (fresh : String) :
    List (String × List Msg) × Except String String × String :=
  let sid := if sessionId = "" then fresh else sessionId
  let filterResult := applyInputFilters configs runs
  if filterResult.1 = "danger" then
    (store, .ok filterResult.2.2, sid)
  else
    let history := (lookupSession store sid).getD []
    let (stored, result) := chatTurn systemPrompt maxHistory llm history query
    (setSession store sid stored, result, sid)

/- ------------------------------------------------------------------ -/
/- Evaluator suite: `LLMEvaluator` (evaluators.py)                      -/
/- ------------------------------------------------------------------ -/

/-- The dictionary returned by a LangChain evaluator chain
(`aevaluate_strings`): `CriteriaEvalChain` yields
`{"score": 0/1, "value": "Y"/"N", "reasoning": ...}` and
`ScoreStringEvalChain` yields `{"score": 1-10, "reasoning": ...}`.  Keys are
read with `dict.get` and a default, so each field is optional. -/
structure LCResult where
  score : Option Rat
  value : Option String
  reasoning : Option String
deriving DecidableEq, Repr

/-- Outcome of `await evaluator.aevaluate_strings(...)` for one evaluator:
a result dictionary, an `OutputParserException`, or any other exception. -/
inductive InvokeResult where
  | ok (result : LCResult)
  | parserError (msg : String)
  | failed (msg : String)
deriving DecidableEq, Repr

/-- One entry of the map returned by `evaluate_response`: either a parsed
evaluation record `{decision, score, evaluation, evaluator}` or an error
record `{error, <details/raw>, evaluator}`. -/
inductive EvalEntry where
  | success (decision : JVal) (score : Rat) (evaluation : String)
      (evaluator : String)
  | failure (error : String) (details : String) (evaluator : String)
deriving DecidableEq, Repr

/-- `LLMEvaluator._parse_langchain_output` (evaluators.py lines 82-113):
`criteria` results map `value` (default `"N"`) to `decision` and `score`
(default `0`) to `score`; `score_string` results map `score` (default `1`) to
both `decision` and `score`; an unknown evaluator type yields an error record
(its `raw` field is carried in `details`). -/
def parseLangchainOutput (result : LCResult) (evaluatorType : String)
    (evaluatorName : String) : EvalEntry :=
  if evaluatorType = "criteria" then
    .success (.str (result.value.getD "N")) (result.score.getD 0)
      (result.reasoning.getD "") evaluatorName
  else if evaluatorType = "score_string" then
    .success (.num (result.score.getD 1)) (result.score.getD 1)
      (result.reasoning.getD "") evaluatorName
  else
    .failure ("unknown_evaluator_type_" ++ evaluatorType) "" evaluatorName

/-- evaluators.py lines 129-136: the `(name, info)` pairs that will actually
run — all configured evaluators when the requested list is `None`/empty,
otherwise only the configured evaluators whose name appears in the request.
The configured set `self.evaluators` is a dict keyed by name, modelled as an
association list of (name, type) in insertion order. -/
def evaluatorsToRun (configured : List (String × String))
    (evaluators : List String) : List (String × String) :=
  if evaluators = [] then configured
  else configured.filter (fun p => evaluators.contains p.1)

/-- The loop body of `evaluate_response` (evaluators.py lines 138-164) for one
`(name, type)` pair: the parsed record on success, an isolated error record on
`OutputParserException` (`output_parser_error`) or any other exception
(`evaluation_failed`). -/
def runOneEvaluator (invoke : String → InvokeResult) (p : String × String) :
    EvalEntry :=
  match invoke p.1 with
  | .ok result => parseLangchainOutput result p.2 p.1
  | .parserError m => .failure "output_parser_error" m p.1
  | .failed m => .failure "evaluation_failed" m p.1

/-- `LLMEvaluator.evaluate_response` (evaluators.py lines 115-166): for each
evaluator to run, invoke its chain (`invoke`, the external LLM capability,
keyed by evaluator name) and store the per-evaluator record under its name. -/
def evaluateResponse (configured : List (String × String))
    (evaluators : List String) (invoke : String → InvokeResult) :
    List (String × EvalEntry) :=
  (evaluatorsToRun configured evaluators).map
    (fun p => (p.1, runOneEvaluator invoke p))

/-- `results[name]` lookup in the returned map. -/
def lookupResult (results : List (String × EvalEntry)) (name : String) :
    Option EvalEntry :=
  (results.find? (fun p => p.1 = name)).map (fun p => p.2)

/- ------------------------------------------------------------------ -/
/- Feedback normalization (utils/evaluate.py, langsmith_client.py,      -/
/- evaluation_service.py)                                               -/
/- ------------------------------------------------------------------ -/

/-- Python `float(value)` on a JSON scalar, as used by `normalize_score`:
numbers convert; strings are treated as non-numeric here (none of the modelled
call sites passes a numeric string). -/
def pyFloat : JVal → Option Rat
  | .num q => some q
  | .str _ => none

/-- `normalize_score` (utils/evaluate.py): `float(value) / scale`, with `0.0`
on a `ValueError`/`TypeError` from the conversion.  The Python default scale
is `3`. -/
def normalize_score (value : JVal) (scale : Rat) : Rat :=
  match pyFloat value with
  | some v => v / scale
  | none => 0

/-- The feedback record assembled by `_format_llm_feedback` (metadata, which
is constant apart from the identifiers, is not modelled). -/
structure Feedback where
  key : String
  score : Rat
  value : JVal
  comment : String
deriving DecidableEq, Repr

/-- An evaluation-result dictionary as consumed by
`LangSmithClient._format_llm_feedback`: the keys it reads (`decision`,
`score`, `evaluation`, `comment`), each possibly absent. -/
structure FeedbackRecord where
  decision : Option JVal
  score : Option Rat
  evaluation : Option String
  comment : Option String
deriving DecidableEq, Repr

/-- The record `evaluate_response` stores for an evaluator, as seen by the
feedback formatter (a parsed record carries `decision`/`score`/`evaluation`
and no `comment` key). -/
def EvalEntry.toFeedbackRecord : EvalEntry → FeedbackRecord
  | .success decision score evaluation _ =>
      ⟨some decision, some score, some evaluation, none⟩
  | .failure _ _ _ => ⟨none, none, none, none⟩

/-- `LangSmithClient._format_llm_feedback` (langsmith_client.py lines 30-58):
start from `score = get("score", 0.0)`, `value = get("decision", "unknown")`,
`comment = get("evaluation", "")`; then, in order: a `"YES"`/`"NO"` decision
forces score `1.0`/`0.0`; a numeric decision is normalized with
`normalize_score` at its default scale `3`; otherwise, when both `score` and
`comment` keys exist, they take over (and `value` becomes the score). -/
def formatLlmFeedback (evaluatorName : String) (r : FeedbackRecord) : Feedback :=
  let score0 : Rat := r.score.getD 0
  let value0 : JVal := r.decision.getD (.str "unknown")
  let comment0 : String := r.evaluation.getD ""
  let svc : Rat × JVal × String :=
    if r.decision = some (.str "YES") ∨ r.decision = some (.str "NO") then
      ((if r.decision = some (.str "YES") then 1 else 0), value0, comment0)
    else match r.decision with
      | some (.num v) => (normalize_score (.num v) 3, .num v, comment0)
      | _ =>
          if r.score.isSome ∧ r.comment.isSome then
            (r.score.getD 0, .num (r.score.getD 0), r.comment.getD "")
          else (score0, value0, comment0)
  { key := "llm_judge_" ++ evaluatorName
    score := svc.1
    value := svc.2.1
    comment := svc.2.2 }

/-- `LangSmithClient.record_human_feedback` (langsmith_client.py lines
86-128), score computation: `"thumbs"` maps `"up"` to `1.0` and anything else
to `0.0`; `"rating"` normalizes via `normalize_score(value, scale=5)`; other
feedback types carry no score. -/
def recordHumanFeedbackScore (feedbackType : String) (value : JVal) :
    Option Rat :=
  if feedbackType = "thumbs" then
    some (if value = .str "up" then 1 else 0)
  else if feedbackType = "rating" then
    some (normalize_score value 5)
  else none

/-- `FeedbackService.record_feedback` (evaluation_service.py lines 405-434),
score computation: `"thumbs"` maps `"up"` to `1.0` and anything else to
`0.0`; `"score"` computes `float(value) / 5.0` (no local guard — a
non-numeric value raises, caught by the surrounding handler); other feedback
types carry no score. -/
def recordFeedbackScore (feedbackType : String) (value : JVal) :
    Except String (Option Rat) :=
  if feedbackType = "thumbs" then
    .ok (some (if value = .str "up" then 1 else 0))
  else if feedbackType = "score" then
    match pyFloat value with
    | some v => .ok (some (v / 5))
    | none => .error "float() conversion failed"
  else .ok none

/-- Modelled from the spec: the score the specification prescribes for a
`score_string`-family outcome — `value / N` "using that evaluator's declared
scale" (`spec.md` §4.5).  The source declares no per-evaluator scale; this
definition exists only to compare the specified normalization against the
code's. -/
def specDeclaredScaleScore (value : Rat) (declaredScale : Rat) : Rat :=
  value / declaredScale

/- ------------------------------------------------------------------ -/
/- Theorems                                                            -/
/- ------------------------------------------------------------------ -/

/-- Claim C9: both human-feedback paths (`LangSmithClient.record_human_feedback`
and `FeedbackService.record_feedback`) normalize a thumbs `"up"` to score
`1.0`, a thumbs `"down"` to `0.0`, and a numeric rating `v` on the 1-5 scale
to `v / 5`, which lies in `[0, 1]`. -/
theorem human_feedback_normalization (v : Rat) (h1 : 1 ≤ v) (h5 : v ≤ 5) :
    recordHumanFeedbackScore "thumbs" (.str "up") = some 1
    ∧ recordHumanFeedbackScore "thumbs" (.str "down") = some 0
    ∧ recordFeedbackScore "thumbs" (.str "up") = .ok (some 1)
    ∧ recordFeedbackScore "thumbs" (.str "down") = .ok (some 0)
    ∧ recordHumanFeedbackScore "rating" (.num v) = some (v / 5)
    ∧ recordFeedbackScore "score" (.num v) = .ok (some (v / 5))
    ∧ 0 ≤ v / 5 ∧ v / 5 ≤ 1 := by
  refine ⟨by decide, by decide, rfl, rfl, ?_, ?_, ?_, ?_⟩
  · simp [recordHumanFeedbackScore, normalize_score, pyFloat]
  · simp [recordFeedbackScore, pyFloat]
  · exact div_nonneg (by linarith) (by norm_num)
  · exact (div_le_one (by norm_num)).mpr (by linarith)

/-- Claim C9 witness: the normalization facts instantiated at the concrete
rating `4`. -/
theorem human_feedback_normalization_witness :
    recordHumanFeedbackScore "rating" (.num 4) = some (4 / 5)
    ∧ (0 : Rat) ≤ 4 / 5 ∧ (4 : Rat) / 5 ≤ 1 :=
  ⟨(human_feedback_normalization 4 (by norm_num) (by norm_num)).2.2.2.2.1,
   (human_feedback_normalization 4 (by norm_num) (by norm_num)).2.2.2.2.2.2.1,
   (human_feedback_normalization 4 (by norm_num) (by norm_num)).2.2.2.2.2.2.2⟩

/-- Claim C8, counterexample: a `score_string` outcome with value `7` on a
declared 1-10 rubric is normalized by the code to `7 / 3` (the fixed default
scale of `normalize_score`), not to the specified `7 / 10`. -/
theorem llm_feedback_scale_counterexample :
    (formatLlmFeedback "relevance"
        (EvalEntry.toFeedbackRecord
          (parseLangchainOutput ⟨some 7, none, some "good"⟩ "score_string"
            "relevance"))).score = 7 / 3
    ∧ (7 : Rat) / 3 ≠ specDeclaredScaleScore 7 10 := by
  constructor
  · rfl
  · simp only [specDeclaredScaleScore]
    norm_num

/-- Claim C8, amended: a criteria-family outcome (a `CriteriaEvalChain` result
parsed by `_parse_langchain_output`, whose chain contract makes the 0/1 score
mirror the `"Y"`/`"N"` value) normalizes to `1.0` when the decision is `"Y"`
and to `0.0` otherwise, and a record whose decision is literally `"YES"` /
`"NO"` normalizes to `1.0` / `0.0`; but a `score_string`-family outcome with
numeric value `v` normalizes to `v / 3` — `normalize_score`'s fixed default
scale of 3 — and not to `v / N` for a per-evaluator declared scale `N`, which
the code nowhere reads. -/
theorem llm_feedback_normalization (name : String) (lc lc2 : LCResult)
    (d : String) (v : Rat) (r : FeedbackRecord)
    (hval : lc.value = some d) (hd : d = "Y" ∨ d = "N")
    (hscore : lc.score = some (if d = "Y" then 1 else 0))
    (hss : lc2.score = some v) :
    (formatLlmFeedback name
        (EvalEntry.toFeedbackRecord
          (parseLangchainOutput lc "criteria" name))).score
      = (if d = "Y" then 1 else 0)
    ∧ (r.decision = some (.str "YES") → (formatLlmFeedback name r).score = 1)
    ∧ (r.decision = some (.str "NO") → (formatLlmFeedback name r).score = 0)
    ∧ (formatLlmFeedback name
        (EvalEntry.toFeedbackRecord
          (parseLangchainOutput lc2 "score_string" name))).score = v / 3 := by
  refine ⟨?_, ?_, ?_, ?_⟩
  · rcases hd with hd | hd <;>
      simp [formatLlmFeedback, parseLangchainOutput, EvalEntry.toFeedbackRecord,
        hval, hscore, hd]
  · intro hyes
    simp [formatLlmFeedback, hyes]
  · intro hno
    simp [formatLlmFeedback, hno]
  · simp [formatLlmFeedback, parseLangchainOutput, EvalEntry.toFeedbackRecord,
      hss, normalize_score, pyFloat]

/-- Claim C8 witness: the amended normalization facts at a concrete criteria
outcome (`"Y"`, score 1) and a concrete `score_string` outcome (value 7). -/
theorem llm_feedback_normalization_witness :
    (formatLlmFeedback "hallucination"
        (EvalEntry.toFeedbackRecord
          (parseLangchainOutput ⟨some 1, some "Y", some "w"⟩ "criteria"
            "hallucination"))).score = 1
    ∧ (formatLlmFeedback "hallucination"
        (EvalEntry.toFeedbackRecord
          (parseLangchainOutput ⟨some 7, none, some "g"⟩ "score_string"
            "hallucination"))).score = 7 / 3 := by
  have h := llm_feedback_normalization "hallucination"
    ⟨some 1, some "Y", some "w"⟩ ⟨some 7, none, some "g"⟩ "Y" 7
    ⟨none, none, none, none⟩ rfl (Or.inl rfl) rfl rfl
  exact ⟨by simpa using h.1, h.2.2.2⟩

/-- Looking a name up in the evaluation map is looking it up among the
evaluators that ran. -/
theorem lookupResult_map (toRun : List (String × String))
    (f : String × String → EvalEntry) (m : String) :
    lookupResult (toRun.map (fun p => (p.1, f p))) m
      = (toRun.find? (fun p => p.1 = m)).map f := by
  induction toRun with
  | nil => rfl
  | cons q rest ih =>
      by_cases h : q.1 = m
      · simp [lookupResult, List.find?, h]
      · simpa [lookupResult, List.find?, h] using ih

/-- Claim C7: in `evaluate_response`, a failing evaluator (`invokeF` differs
from the healthy `invoke` only at `n`, where it either raises a generic
exception or fails output parsing with an `OutputParserException`) yields
exactly one error record — `evaluation_failed` for an invocation failure,
`output_parser_error` for a parsing failure — stored under its own name with
its own `evaluator` field; the returned map still has one entry per evaluator
that ran, and every other name's entry is untouched (per-key independence) —
the call never aborts. -/
theorem evaluator_isolation (configured : List (String × String))
    (evaluators : List String) (invoke invokeF : String → InvokeResult)
    (n msg : String)
    (hagree : ∀ k, k ≠ n → invokeF k = invoke k)
    (hfail : invokeF n = .failed msg ∨ invokeF n = .parserError msg) :
    (evaluateResponse configured evaluators invokeF).map Prod.fst
        = (evaluatorsToRun configured evaluators).map Prod.fst
    ∧ (invokeF n = .failed msg →
        ∀ e ∈ evaluateResponse configured evaluators invokeF,
          e.1 = n → e.2 = .failure "evaluation_failed" msg n)
    ∧ (invokeF n = .parserError msg →
        ∀ e ∈ evaluateResponse configured evaluators invokeF,
          e.1 = n → e.2 = .failure "output_parser_error" msg n)
    ∧ (∀ m, m ≠ n →
        lookupResult (evaluateResponse configured evaluators invokeF) m
          = lookupResult (evaluateResponse configured evaluators invoke) m) := by
  refine ⟨?_, ?_, ?_, ?_⟩
  · rw [evaluateResponse, List.map_map]
    exact List.map_congr_left (fun p _ => rfl)
  · intro hf e he hen
    rw [evaluateResponse, List.mem_map] at he
    obtain ⟨p, hp, rfl⟩ := he
    have hpn : p.1 = n := hen
    simp [runOneEvaluator, hpn, hf]
  · intro hp e he hen
    rw [evaluateResponse, List.mem_map] at he
    obtain ⟨p, hp2, rfl⟩ := he
    have hpn : p.1 = n := hen
    simp [runOneEvaluator, hpn, hp]
  · intro m hm
    rw [evaluateResponse, evaluateResponse, lookupResult_map, lookupResult_map]
    cases hfind : (evaluatorsToRun configured evaluators).find?
        (fun p => p.1 = m) with
    | none => rfl
    | some p =>
        have hpm : p.1 = m := by simpa using List.find?_some hfind
        simp [runOneEvaluator, hagree p.1 (by rw [hpm]; exact hm)]

/-- Claim C7 witness: with `"toxicity"` and `"hallucination"` configured,
a `"toxicity"` chain that raises leaves `"hallucination"`'s entry exactly as
in the fully healthy run, and a `"toxicity"` chain whose output fails parsing
gets an isolated `output_parser_error` record under its own name. -/
theorem evaluator_isolation_witness :
    lookupResult
        (evaluateResponse [("toxicity", "criteria"), ("hallucination", "criteria")]
          []
          (fun k => if k = "toxicity" then .failed "boom"
            else .ok ⟨some 0, some "N", some "fine"⟩))
        "hallucination"
      = lookupResult
        (evaluateResponse [("toxicity", "criteria"), ("hallucination", "criteria")]
          [] (fun _ => .ok ⟨some 0, some "N", some "fine"⟩))
        "hallucination"
    ∧ lookupResult
        (evaluateResponse [("toxicity", "criteria"), ("hallucination", "criteria")]
          []
          (fun k => if k = "toxicity" then .parserError "bad json"
            else .ok ⟨some 0, some "N", some "fine"⟩))
        "toxicity"
      = some (.failure "output_parser_error" "bad json" "toxicity") := by
  have hF := evaluator_isolation
    [("toxicity", "criteria"), ("hallucination", "criteria")] []
    (fun _ => .ok ⟨some 0, some "N", some "fine"⟩)
    (fun k => if k = "toxicity" then .failed "boom"
      else .ok ⟨some 0, some "N", some "fine"⟩)
    "toxicity" "boom" (fun k hk => by simp [hk]) (Or.inl (by simp))
  have hP := evaluator_isolation
    [("toxicity", "criteria"), ("hallucination", "criteria")] []
    (fun _ => .ok ⟨some 0, some "N", some "fine"⟩)
    (fun k => if k = "toxicity" then .parserError "bad json"
      else .ok ⟨some 0, some "N", some "fine"⟩)
    "toxicity" "bad json" (fun k hk => by simp [hk]) (Or.inr (by simp))
  refine ⟨hF.2.2.2 "hallucination" (by decide), ?_⟩
  have hmem : ("toxicity",
      runOneEvaluator
        (fun k => if k = "toxicity" then .parserError "bad json"
          else .ok ⟨some 0, some "N", some "fine"⟩)
        ("toxicity", "criteria"))
      ∈ evaluateResponse [("toxicity", "criteria"), ("hallucination", "criteria")]
          []
          (fun k => if k = "toxicity" then .parserError "bad json"
            else .ok ⟨some 0, some "N", some "fine"⟩) := by
    decide
  exact congrArg some (hP.2.2.1 (by simp) _ hmem rfl)

/-- Claim C10: when `evaluate_response` is given a non-empty evaluator list,
only configured names run (in configuration order); an unknown requested name
produces no entry at all in the returned map, and a request naming only
unknown evaluators returns the empty map. -/
theorem requested_evaluator_selection (configured : List (String × String))
    (evaluators : List String) (invoke : String → InvokeResult)
    (hne : evaluators ≠ []) :
    (evaluateResponse configured evaluators invoke).map Prod.fst
        = (configured.filter (fun p => evaluators.contains p.1)).map Prod.fst
    ∧ (∀ nm, nm ∉ configured.map Prod.fst →
        lookupResult (evaluateResponse configured evaluators invoke) nm = none)
    ∧ ((∀ p ∈ configured, evaluators.contains p.1 = false) →
        evaluateResponse configured evaluators invoke = []) := by
  refine ⟨?_, ?_, ?_⟩
  · rw [evaluateResponse, List.map_map, evaluatorsToRun, if_neg hne]
    exact List.map_congr_left (fun p _ => rfl)
  · intro nm hnm
    rw [evaluateResponse, lookupResult_map]
    cases hfind : (evaluatorsToRun configured evaluators).find?
        (fun p => p.1 = nm) with
    | none => rfl
    | some p =>
        have hpm : p.1 = nm := by simpa using List.find?_some hfind
        have hmem : p ∈ evaluatorsToRun configured evaluators :=
          List.mem_of_find?_eq_some hfind
        rw [evaluatorsToRun, if_neg hne] at hmem
        exact absurd (List.mem_map_of_mem Prod.fst (List.mem_of_mem_filter hmem))
          (hpm ▸ hnm)
  · intro hall
    have hfil : configured.filter (fun p => evaluators.contains p.1) = [] :=
      List.filter_eq_nil_iff.mpr (fun p hp => by simpa using hall p hp)
    rw [evaluateResponse, evaluatorsToRun, if_neg hne, hfil]
    rfl

/-- Each slot of the gather buffer holds its own task's result once that task
has completed, no matter in which order the tasks completed. -/
theorem gatherBuffer_apply (tasks : List α) (order : List Nat) (i : Nat) :
    gatherBuffer tasks order i = if i ∈ order then tasks.get? i else none := by
  suffices h : ∀ f0 : Nat → Option α,
      (order.foldl (fun buf k => fun j => if j = k then tasks.get? k else buf j)
          f0) i
        = if i ∈ order then tasks.get? i else f0 i from h _
  induction order with
  | nil => intro f0; simp
  | cons a rest ih =>
      intro f0
      rw [List.foldl_cons, ih]
      by_cases hr : i ∈ rest
      · simp [hr]
      · by_cases ha : i = a
        · simp [hr, ha]
        · simp [hr, ha]

/-- Reading the list `(l.get? 0), (l.get? 1), ...` back gives `l` itself. -/
theorem range_map_getq (l : List α) :
    (List.range l.length).map (fun i => l.get? i) = l.map some := by
  induction l with
  | nil => rfl
  | cons a t ih =>
      rw [List.length_cons, List.range_succ_eq_map, List.map_cons, List.map_map]
      have hc : ((fun i => (a :: t).get? i) ∘ Nat.succ) = fun i => t.get? i := rfl
      rw [hc, ih]
      rfl

/-- `asyncio.gather` semantics: whenever every task index appears in the
completion order, the gathered list is the task results in task order —
completion order is irrelevant. -/
theorem gatherOutput_eq (tasks : List α) (order : List Nat)
    (hcov : ∀ i, i < tasks.length → i ∈ order) :
    gatherOutput tasks order = tasks.map some := by
  rw [gatherOutput]
  have h1 : ∀ i ∈ List.range tasks.length,
      gatherBuffer tasks order i = tasks.get? i := fun i hi => by
    rw [gatherBuffer_apply, if_pos (hcov i (List.mem_range.mp hi))]
  rw [List.map_congr_left h1, range_map_getq]

/-- Collapsing a fully completed slot buffer recovers the task results. -/
theorem completedResults_map_some (l : List α) :
    completedResults (l.map some) = l := by
  rw [completedResults, List.filterMap_map]
  simp

/-- The aggregation loop returns the first triple, in list order, whose
decision is `"danger"`. -/
theorem applyFrom_firstDanger (ts : List (String × String × String)) (k : Nat)
    (t : String × String × String)
    (hk : ts.get? k = some t) (hd : t.1 = "danger")
    (hm : ∀ j, j < k → (ts.get? j).map (fun u => u.1) ≠ some "danger") :
    applyInputFiltersFrom (ts.map Except.ok) = t := by
  induction ts generalizing k with
  | nil => simp at hk
  | cons t0 rest ih =>
      cases k with
      | zero =>
          have ht : t0 = t := by simpa using hk
          subst ht
          simp [applyInputFiltersFrom, hd]
      | succ k =>
          have h0 : ¬ t0.1 = "danger" := by simpa using hm 0 (Nat.succ_pos k)
          have hstep : applyInputFiltersFrom ((t0 :: rest).map Except.ok)
              = applyInputFiltersFrom (rest.map Except.ok) := by
            simp [applyInputFiltersFrom, h0]
          rw [hstep]
          exact ih k (by simpa using hk)
            (fun j hj => by simpa using hm (j + 1) (Nat.succ_lt_succ hj))

/-- The aggregation loop returns `("safe", "", "")` when no triple's decision
is `"danger"`. -/
theorem applyFrom_noDanger (ts : List (String × String × String))
    (h : ∀ i, (ts.get? i).map (fun u => u.1) ≠ some "danger") :
    applyInputFiltersFrom (ts.map Except.ok) = ("safe", "", "") := by
  induction ts with
  | nil => rfl
  | cons t0 rest ih =>
      have h0 : ¬ t0.1 = "danger" := by simpa using h 0
      simp only [List.map_cons, applyInputFiltersFrom, if_neg h0]
      exact ih (fun i => by simpa using h (i + 1))

/-- Claim C2: if some filter reports `"danger"`, the chain's result is the
triple of the danger-reporting filter with the lowest configuration-order
index, for every completion order of the parallel filter tasks that delivers
all of them — the outcome does not depend on which filter finished first. -/
theorem first_danger_by_configuration_order (configs : List FilterConfig)
    (runs : List ClassifierRun) (order : List Nat) (k : Nat)
    (t : String × String × String)
    (hcov : ∀ i, i < (filterTaskResults configs runs).length → i ∈ order)
    (hk : (filterOutcomes configs runs).get? k = some t)
    (hdanger : t.1 = "danger")
    (hmin : ∀ j, j < k →
      ((filterOutcomes configs runs).get? j).map (fun u => u.1)
        ≠ some "danger") :
    applyInputFiltersFrom
        (completedResults (gatherOutput (filterTaskResults configs runs) order))
      = t := by
  rw [gatherOutput_eq _ _ hcov, completedResults_map_some, filterTaskResults]
  exact applyFrom_firstDanger _ k t hk hdanger hmin

/-- Claim C2 witness: filters `[A, B]` both report danger; even with `B`
completing before `A` (completion order `[1, 0]`), the chain returns `A`'s
outcome. -/
theorem first_danger_by_configuration_order_witness :
    applyInputFiltersFrom
        (completedResults
          (gatherOutput
            (filterTaskResults
              [⟨some "A", some "ta"⟩, ⟨some "B", some "tb"⟩]
              [.parsed (some "danger") (some "ea"),
               .parsed (some "danger") (some "eb")])
            [1, 0]))
      = ("danger", "A: ea", "ta") :=
  first_danger_by_configuration_order
    [⟨some "A", some "ta"⟩, ⟨some "B", some "tb"⟩]
    [.parsed (some "danger") (some "ea"), .parsed (some "danger") (some "eb")]
    [1, 0] 0 ("danger", "A: ea", "ta")
    (by decide) (by decide) (by decide) (by decide)

/-- One filter raising (or failing to parse) is equivalent, for the aggregate,
to that filter reporting safe. -/
theorem applyFilters_set_safe (configs : List FilterConfig)
    (runs : List ClassifierRun) (j : Nat) (msg : String)
    (hj : runs.get? j = some (.raises msg)) :
    applyInputFilters configs runs
      = applyInputFilters configs
          (runs.set j (.parsed (some "safe") (some ""))) := by
  induction configs generalizing runs j with
  | nil => rfl
  | cons c cs ih =>
      cases runs with
      | nil => simp at hj
      | cons r rs =>
          cases j with
          | zero =>
              have hr : r = .raises msg := by simpa using hj
              subst hr
              show (if (runSingleFilter c (.raises msg)).1 = "danger"
                      then runSingleFilter c (.raises msg)
                      else applyInputFilters cs rs)
                  = (if (runSingleFilter c
                          (.parsed (some "safe") (some ""))).1 = "danger"
                      then runSingleFilter c (.parsed (some "safe") (some ""))
                      else applyInputFilters cs rs)
              simp [runSingleFilter]
          | succ j =>
              have hrec := ih rs j (by simpa using hj)
              show (if (runSingleFilter c r).1 = "danger"
                      then runSingleFilter c r
                      else applyInputFilters cs rs)
                  = (if (runSingleFilter c r).1 = "danger"
                      then runSingleFilter c r
                      else applyInputFilters cs
                        (rs.set j (.parsed (some "safe") (some ""))))
              rw [hrec]

/-- Claim C3: `apply_input_filters` is total (a throwing classifier or a JSON
parse failure is caught inside `_run_single_filter`, so nothing propagates to
the caller), a failing filter contributes exactly as if it had reported safe
(the remaining filters are still considered), and when no filter reports
danger the aggregate is `("safe", "", "")` — for any number of filters,
including zero. -/
theorem filter_fail_open (configs : List FilterConfig)
    (runs : List ClassifierRun) (j : Nat) (msg : String)
    (hj : runs.get? j = some (.raises msg)) :
    applyInputFilters configs runs
        = applyInputFilters configs
            (runs.set j (.parsed (some "safe") (some "")))
    ∧ ((∀ i, ((filterOutcomes configs runs).get? i).map (fun u => u.1)
          ≠ some "danger") →
        applyInputFilters configs runs = ("safe", "", "")) :=
  ⟨applyFilters_set_safe configs runs j msg hj,
   fun h => applyFrom_noDanger (filterOutcomes configs runs) h⟩

/-- Claim C3 witness: with filter `A`'s classifier raising and filter `B`
reporting safe, the chain behaves as if `A` reported safe and the aggregate
is `("safe", "", "")`. -/
theorem filter_fail_open_witness :
    applyInputFilters [⟨some "A", some "ta"⟩, ⟨some "B", some "tb"⟩]
        [.raises "network down", .parsed (some "safe") (some "ok")]
      = applyInputFilters [⟨some "A", some "ta"⟩, ⟨some "B", some "tb"⟩]
        ([ClassifierRun.raises "network down",
          .parsed (some "safe") (some "ok")].set 0
          (.parsed (some "safe") (some "")))
    ∧ applyInputFilters [⟨some "A", some "ta"⟩, ⟨some "B", some "tb"⟩]
        [.raises "network down", .parsed (some "safe") (some "ok")]
      = ("safe", "", "") := by
  have h := filter_fail_open [⟨some "A", some "ta"⟩, ⟨some "B", some "tb"⟩]
    [.raises "network down", .parsed (some "safe") (some "ok")] 0
    "network down" rfl
  refine ⟨h.1, h.2 ?_⟩
  intro i
  match i with
  | 0 => decide
  | 1 => decide
  | (n + 2) => simp [filterOutcomes]

/-- Claim C10 witness: one configured evaluator, a request naming only an
unknown evaluator — the result is the empty map with no entry and no error
record for the unknown name. -/
theorem requested_evaluator_selection_witness :
    evaluateResponse [("toxicity", "criteria")] ["unknown"]
        (fun _ => InvokeResult.failed "x") = []
    ∧ lookupResult
        (evaluateResponse [("toxicity", "criteria")] ["unknown"]
          (fun _ => InvokeResult.failed "x")) "unknown" = none := by
  have h := requested_evaluator_selection [("toxicity", "criteria")] ["unknown"]
    (fun _ => InvokeResult.failed "x") (by decide)
  exact ⟨h.2.2 (by decide), h.2.1 "unknown" (by decide)⟩

/-- Claim C6: when the filter chain reports `"danger"`, `handle_chat` returns
the triggering filter's template response together with the session
identifier, and the session store is exactly what it was — no user, assistant
or system message is appended for the blocked turn. -/
theorem blocked_turn_leaves_history (systemPrompt : String) (maxHistory : Nat)
    (configs : List FilterConfig) (runs : List ClassifierRun) (llm : LlmCall)
    (store : List (String × List Msg)) (query sessionId fresh : String)
    (hd : (applyInputFilters configs runs).1 = "danger") :
    handleChat systemPrompt maxHistory configs runs llm store query sessionId
        fresh
      = (store, .ok (applyInputFilters configs runs).2.2,
         if sessionId = "" then fresh else sessionId) := by
  simp [handleChat, hd]

/-- Claim C6 witness: a blocked turn on a non-empty store returns the template
`"tpl"` with the given session id and leaves the store untouched. -/
theorem blocked_turn_leaves_history_witness :
    handleChat "sp" 20 [⟨some "A", some "tpl"⟩]
        [.parsed (some "danger") (some "insult")] (fun _ => Except.ok "r")
        [("s1", [Msg.user "old"])] "Eres un idiota" "s1" "fresh"
      = ([("s1", [Msg.user "old"])], .ok "tpl", "s1") := by
  have h := blocked_turn_leaves_history "sp" 20 [⟨some "A", some "tpl"⟩]
    [.parsed (some "danger") (some "insult")] (fun _ => Except.ok "r")
    [("s1", [Msg.user "old"])] "Eres un idiota" "s1" "fresh" (by decide)
  exact h

/-- Claim C1, counterexample: with a configured system prompt and an LLM call
that raises, the turn leaves the session's stored history mutated — the system
message and the orphaned user message are appended (from an empty store), so
the history is not "exactly as it was before the turn". -/
theorem atomic_turn_counterexample :
    (handleChat "sp" 20 [] [] (fun _ => Except.error "llm down") [] "q" "s1"
        "fresh").1
      = [("s1", [Msg.system "sp", Msg.user "q"])]
    ∧ [("s1", [Msg.system "sp", Msg.user "q"])]
        ≠ ([] : List (String × List Msg)) := by
  exact ⟨rfl, by decide⟩

/-- Claim C1, amended: when the LLM call raises during a chat turn, the
exception propagates out of `handle_chat` and the session's stored history is
NOT restored: it keeps the just-appended user message (and the system message,
when one was inserted this turn) with no assistant message — the two history
entries of a turn are not appended atomically. -/
theorem llm_failure_keeps_orphan_user (systemPrompt : String) (maxHistory : Nat)
    (configs : List FilterConfig) (runs : List ClassifierRun) (llm : LlmCall)
    (store : List (String × List Msg)) (query sessionId fresh sid e : String)
    (hsid : sid = if sessionId = "" then fresh else sessionId)
    (hsafe : ¬ (applyInputFilters configs runs).1 = "danger")
    (hllm : llm (withSystem systemPrompt ((lookupSession store sid).getD [])
        ++ [Msg.user (pyStrip query)]) = .error e) :
    handleChat systemPrompt maxHistory configs runs llm store query sessionId
        fresh
      = (setSession store sid
          (withSystem systemPrompt ((lookupSession store sid).getD [])
            ++ [Msg.user (pyStrip query)]),
         .error e, sid) := by
  subst hsid
  simp [handleChat, chatTurn, hsafe, hllm]

/-- Claim C1 witness (for the amended statement): the concrete failing turn of
the counterexample, reproduced through the general theorem. -/
theorem llm_failure_keeps_orphan_user_witness :
    handleChat "sp" 20 [] [] (fun _ => Except.error "llm down") [] "q" "s1"
        "fresh"
      = ([("s1", [Msg.system "sp", Msg.user "q"])], .error "llm down", "s1") := by
  have h := llm_failure_keeps_orphan_user "sp" 20 [] []
    (fun _ => Except.error "llm down") [] "q" "s1" "fresh" "s1" "llm down"
    (by decide) (by decide) rfl
  exact h

/-- A suffix of length at least two of `xs ++ [u, a]` still ends in
`[u, a]`. -/
theorem drop_keeps_last_two (xs : List α) (u a : α) (n : Nat) (hn : 2 ≤ n) :
    ∃ l, (xs ++ [u, a]).drop ((xs ++ [u, a]).length - n) = l ++ [u, a] := by
  refine ⟨xs.drop ((xs ++ [u, a]).length - n), ?_⟩
  have hle : (xs ++ [u, a]).length - n ≤ xs.length := by
    rw [List.length_append]
    simp only [List.length_cons, List.length_nil]
    omega
  rw [List.drop_append_of_le_length hle]

/-- Claim C4, counterexample: with a configured system prompt and
`max_history = 2`, a completed turn's trim drops the turn's own user message —
the stored history's last two entries are `[system, assistant]`, not the
turn's `[user, assistant]` exchange. -/
theorem turn_survival_counterexample :
    (chatTurn "s" 2 (fun _ => Except.ok "r") [] "q").1
      = [Msg.system "s", Msg.assistant "r"]
    ∧ (chatTurn "s" 2 (fun _ => Except.ok "r") [] "q").1.drop
        ((chatTurn "s" 2 (fun _ => Except.ok "r") [] "q").1.length - 2)
      ≠ [Msg.user "q", Msg.assistant "r"] := by
  exact ⟨rfl, by decide⟩

/-- Claim C4, amended: the post-turn truncation never removes the two messages
appended by a successfully completed turn — they remain the last two entries
of the stored history — provided `max_history` is at least 2 plus one slot for
the preserved system message when a system prompt is configured (i.e.
`max_history ≥ 3` with a system prompt, `≥ 2` without); for smaller values the
trim can drop the turn's own messages. -/
theorem turn_messages_survive_trim (systemPrompt : String) (maxHistory : Nat)
    (llm : LlmCall) (history : List Msg) (query content : String)
    (hM : 2 + (if systemPrompt = "" then 0 else 1) ≤ maxHistory)
    (hllm : llm (withSystem systemPrompt history ++ [Msg.user (pyStrip query)])
        = .ok content) :
    ∃ l, (chatTurn systemPrompt maxHistory llm history query).1
        = l ++ [Msg.user (pyStrip query), Msg.assistant content] := by
  have hct : (chatTurn systemPrompt maxHistory llm history query).1
      = trimHistory systemPrompt maxHistory
          (withSystem systemPrompt history
            ++ [Msg.user (pyStrip query), Msg.assistant content]) := by
    simp [chatTurn, hllm]
  rw [hct]
  set h1 := withSystem systemPrompt history with hh1
  rw [trimHistory]
  by_cases hlen :
      (h1 ++ [Msg.user (pyStrip query), Msg.assistant content]).length
        > maxHistory
  · rw [if_pos hlen]
    set head :=
      if systemPrompt ≠ ""
          ∧ headIsSystem (h1 ++ [Msg.user (pyStrip query),
              Msg.assistant content]) then
        (h1 ++ [Msg.user (pyStrip query), Msg.assistant content]).take 1
      else [] with hhead
    have hheadlen : head.length ≤ 1 := by
      rw [hhead]
      split
      · exact List.length_take_le 1 _
      · simp
    have htail2 : 2 ≤ maxHistory - head.length := by
      by_cases hsp : systemPrompt = ""
      · have : head = [] := by
          rw [hhead, if_neg]
          intro hc
          exact hc.1 hsp
        rw [this]
        simp only [hsp, if_pos rfl] at hM
        simp
        omega
      · rw [if_neg hsp] at hM
        omega
    rw [if_pos (by omega : maxHistory - head.length > 0)]
    obtain ⟨l, hl⟩ := drop_keeps_last_two h1 (Msg.user (pyStrip query))
      (Msg.assistant content) (maxHistory - head.length) htail2
    refine ⟨head ++ l, ?_⟩
    rw [hl, List.append_assoc]
  · rw [if_neg hlen]
    exact ⟨h1, rfl⟩

/-- Claim C4 witness: with `max_history = 3` and a system prompt, the turn's
user and assistant messages are the last two stored entries. -/
theorem turn_messages_survive_trim_witness :
    ∃ l, (chatTurn "s" 3 (fun _ => Except.ok "r") [] "q").1
        = l ++ [Msg.user (pyStrip "q"), Msg.assistant "r"] :=
  turn_messages_survive_trim "s" 3 (fun _ => Except.ok "r") [] "q" "r"
    (by decide) rfl

/-- With a non-empty system prompt and no stray system message after the head,
the history produced by the system-prompt insertion starts with a system
message. -/
theorem withSystem_headIsSystem (sp : String) (h : List Msg) (hsp : sp ≠ "")
    (hinv : ∀ m ∈ h.tail, m.isSystem = false) :
    headIsSystem (withSystem sp h) = true := by
  rw [withSystem]
  split
  · rfl
  · next hc =>
      have hany : h.any Msg.isSystem = true := by
        by_contra hno
        exact hc ⟨hsp, hno⟩
      cases h with
      | nil => simp at hany
      | cons m t =>
          have hts : t.any Msg.isSystem = false := by
            rw [List.any_eq_false]
            intro x hx
            simp [hinv x hx]
          rw [List.any_cons, hts, Bool.or_false] at hany
          cases m with
          | system s => rfl
          | user s => simp [Msg.isSystem] at hany
          | assistant s => simp [Msg.isSystem] at hany

/-- The system-prompt insertion never puts a system message anywhere but the
head. -/
theorem withSystem_tail_noSystem (sp : String) (h : List Msg)
    (hinv : ∀ m ∈ h.tail, m.isSystem = false) :
    ∀ m ∈ (withSystem sp h).tail, m.isSystem = false := by
  rw [withSystem]
  split
  · next hc =>
      intro m hm
      have hany : h.any Msg.isSystem = false := by
        have h2 := hc.2
        simpa using h2
      have := List.any_eq_false.mp hany m hm
      simpa using this
  · exact hinv

/-- A history starting with a system message is a system message consed on a
rest. -/
theorem headIsSystem_decomp (l : List Msg) (h : headIsSystem l = true) :
    ∃ s rest, l = Msg.system s :: rest := by
  cases l with
  | nil => simp [headIsSystem] at h
  | cons m t =>
      cases m with
      | system s => exact ⟨s, t, rfl⟩
      | user s => simp [headIsSystem] at h
      | assistant s => simp [headIsSystem] at h

/-- Behaviour of the trim step on a history headed by its single system
message, for `max_history ≥ 1`: a short history is untouched, an overlong one
is cut to exactly `max_history` entries, and the result still has the system
message at index 0 and nowhere else. -/
theorem trimHistory_system (sp : String) (maxH : Nat) (s : String)
    (rest : List Msg) (hsp : sp ≠ "") (hM : 1 ≤ maxH)
    (hrest : ∀ m ∈ rest, m.isSystem = false) :
    ((Msg.system s :: rest).length ≤ maxH →
        trimHistory sp maxH (Msg.system s :: rest) = Msg.system s :: rest)
    ∧ (maxH < (Msg.system s :: rest).length →
        (trimHistory sp maxH (Msg.system s :: rest)).length = maxH)
    ∧ headIsSystem (trimHistory sp maxH (Msg.system s :: rest)) = true
    ∧ ∀ m ∈ (trimHistory sp maxH (Msg.system s :: rest)).tail,
        m.isSystem = false := by
  have hcond : sp ≠ "" ∧ headIsSystem (Msg.system s :: rest) = true :=
    ⟨hsp, rfl⟩
  by_cases hbig : (Msg.system s :: rest).length > maxH
  · have hbig2 : rest.length + 1 > maxH := by simpa using hbig
    have htrim : trimHistory sp maxH (Msg.system s :: rest)
        = if maxH - 1 > 0 then
            [Msg.system s] ++ (Msg.system s :: rest).drop
              ((Msg.system s :: rest).length - (maxH - 1))
          else [Msg.system s] := by
      simp only [trimHistory, List.length_cons, if_pos hbig2, if_pos hcond,
        List.take_succ_cons, List.take_zero, List.length_cons,
        List.length_nil, Nat.zero_add]
    by_cases hM1 : maxH = 1
    · subst hM1
      rw [htrim, if_neg (by omega : ¬ (1 - 1 > 0))]
      refine ⟨fun hle => absurd hle (by omega), fun _ => rfl, rfl, by simp⟩
    · have h2 : 2 ≤ maxH := by omega
      have hdropeq : (Msg.system s :: rest).length - (maxH - 1)
          = (rest.length + 1 - maxH) + 1 := by
        simp only [List.length_cons]
        omega
      rw [htrim, if_pos (by omega : maxH - 1 > 0), hdropeq,
        List.drop_succ_cons]
      refine ⟨?_, ?_, rfl, ?_⟩
      · intro hle
        omega
      · intro _
        simp only [List.length_cons] at hbig
        simp [List.length_drop]
        omega
      · intro m hm
        simp only [List.cons_append, List.nil_append, List.tail_cons] at hm
        exact hrest m (List.mem_of_mem_drop hm)
  · have htrim : trimHistory sp maxH (Msg.system s :: rest)
        = Msg.system s :: rest := by
      simp only [trimHistory, if_neg hbig]
    rw [htrim]
    exact ⟨fun _ => rfl, fun hlt => by omega, rfl, hrest⟩

/-- Claim C5, counterexample: with a configured system prompt and
`max_history = 0`, a completed turn stores a history of length 1 (the system
message survives the trim), exceeding `max_history`. -/
theorem history_bound_counterexample :
    (chatTurn "s" 0 (fun _ => Except.ok "r") [] "q").1 = [Msg.system "s"]
    ∧ ¬ ((chatTurn "s" 0 (fun _ => Except.ok "r") [] "q").1.length ≤ 0) := by
  exact ⟨rfl, by decide⟩

/-- Claim C5, amended: for a session with a configured system prompt and
`max_history ≥ 1` (for `max_history = 0` the preserved system message alone
already exceeds the bound), a successfully completed turn stores a history of
length at most `max_history` — exactly `max_history` whenever the pre-trim
history exceeded it, so sustained appending pins the length at `max_history` —
with exactly one system message, located at index 0; the invariant (no system
message after index 0) is preserved by the turn's appends and trim. -/
theorem history_bound_and_single_system (systemPrompt : String)
    (maxHistory : Nat) (llm : LlmCall) (history : List Msg)
    (query content : String)
    (hsp : systemPrompt ≠ "") (hM : 1 ≤ maxHistory)
    (hinv : ∀ m ∈ history.tail, m.isSystem = false)
    (hllm : llm (withSystem systemPrompt history ++ [Msg.user (pyStrip query)])
        = .ok content) :
    (chatTurn systemPrompt maxHistory llm history query).1.length ≤ maxHistory
    ∧ (maxHistory < (withSystem systemPrompt history).length + 2 →
        (chatTurn systemPrompt maxHistory llm history query).1.length
          = maxHistory)
    ∧ headIsSystem (chatTurn systemPrompt maxHistory llm history query).1 = true
    ∧ ∀ m ∈ (chatTurn systemPrompt maxHistory llm history query).1.tail,
        m.isSystem = false := by
  have hct : (chatTurn systemPrompt maxHistory llm history query).1
      = trimHistory systemPrompt maxHistory
          (withSystem systemPrompt history
            ++ [Msg.user (pyStrip query), Msg.assistant content]) := by
    simp [chatTurn, hllm]
  have f1 : headIsSystem (withSystem systemPrompt history) = true :=
    withSystem_headIsSystem _ _ hsp hinv
  have f2 := withSystem_tail_noSystem systemPrompt history hinv
  obtain ⟨s, t0, hdec⟩ := headIsSystem_decomp _ f1
  have f4 : ∀ m ∈ t0 ++ [Msg.user (pyStrip query), Msg.assistant content],
      m.isSystem = false := by
    intro m hm
    rcases List.mem_append.mp hm with h | h
    · refine f2 m ?_
      rw [hdec]
      exact h
    · simp only [List.mem_cons, List.mem_singleton] at h
      rcases h with rfl | rfl | h
      · rfl
      · rfl
      · simp at h
  have happ : withSystem systemPrompt history
      ++ [Msg.user (pyStrip query), Msg.assistant content]
      = Msg.system s
          :: (t0 ++ [Msg.user (pyStrip query), Msg.assistant content]) := by
    rw [hdec]
    rfl
  have hts := trimHistory_system systemPrompt maxHistory s
    (t0 ++ [Msg.user (pyStrip query), Msg.assistant content]) hsp hM f4
  have hlen1 : (withSystem systemPrompt history).length = t0.length + 1 := by
    rw [hdec]
    rfl
  rw [hct, happ]
  refine ⟨?_, ?_, hts.2.2.1, hts.2.2.2⟩
  · by_cases hle : (Msg.system s
        :: (t0 ++ [Msg.user (pyStrip query), Msg.assistant content])).length
        ≤ maxHistory
    · rw [hts.1 hle]
      exact hle
    · rw [hts.2.1 (by omega)]
  · intro hlt
    refine hts.2.1 ?_
    simp only [List.length_cons, List.length_append]
    rw [hlen1] at hlt
    simp only [List.length_cons, List.length_nil] at hlt ⊢
    omega

/-- Claim C5 witness: system prompt `"s"`, `max_history = 4`, empty prior
history — the amended bound and single-system-at-0 facts at a concrete
successful turn. -/
theorem history_bound_and_single_system_witness :
    (chatTurn "s" 4 (fun _ => Except.ok "r") [] "q").1.length ≤ 4
    ∧ (4 < (withSystem "s" []).length + 2 →
        (chatTurn "s" 4 (fun _ => Except.ok "r") [] "q").1.length = 4)
    ∧ headIsSystem (chatTurn "s" 4 (fun _ => Except.ok "r") [] "q").1 = true
    ∧ ∀ m ∈ (chatTurn "s" 4 (fun _ => Except.ok "r") [] "q").1.tail,
        m.isSystem = false :=
  history_bound_and_single_system "s" 4 (fun _ => Except.ok "r") [] "q" "r"
    (by decide) (by decide) (by simp) rfl

end RaiDemo
